import Mathlib

/-!
A shallow embedding of the `errorx` Go package (error values with captured
stacks, prefixes, metadata, JSON serialization, cause-chain equality, and a
panic-text parser), together with theorems checking the specification's
claims against this embedding.

Modelling conventions:
* Go machine integers that matter here (line numbers, program counters) are
  modelled as `Int` / `Nat`; no overflow is relevant to the verified code.
* Go heap pointers to `errorData` are modelled as indices into a `World`
  heap (a list of `ErrorData` records); pointer-receiver methods update the
  heap in place, value-receiver methods operate on a copy of the record and
  any assignment to the copy is discarded by the caller, exactly as in Go.
* External collaborators (the runtime's stack capture `runtime.Callers`,
  symbol resolution `runtime.FuncForPC`/`FileLine`, and the filesystem read
  in `SourceLine`) are oracles passed in as parameters, per the spec's
  "collaborator capabilities consumed" section.
* Go strings are Lean `String`s; the byte-indexed Go slicing used by the
  panic parser always slices at the position of a one-byte ASCII character,
  so character-based slicing over `String.data` produces identical strings.
-/

namespace Errorx

/-- `StackFrame` record from the source: file, 1-based line number, bare
function name, package path, raw program counter. -/
structure StackFrame where
  File : String
  LineNumber : Int
  Name : String
  Package : String
  ProgramCounter : Nat
  deriving Repr, DecidableEq, Inhabited

/-- A Go `error` interface value as seen by this package: the nil interface,
a plain allocated error (identity = allocation id, as Go compares pointer
identity, never messages), the value-type `uncaughtPanic` marker (Go compares
it by its message field, since it is a comparable struct), or a pointer to an
`errorData` record living in the heap. -/
inductive GoErr where
  | nil : GoErr
  | plain : Nat → String → GoErr
  | upanic : String → GoErr
  | ptr : Nat → GoErr
  deriving Repr, DecidableEq

/-- Go `==` on two `error` interface values: equal dynamic type and equal
value; pointers compare by address, the `uncaughtPanic` struct by value. -/
def goEq : GoErr → GoErr → Bool
  | GoErr.nil, GoErr.nil => true
  | GoErr.plain i _, GoErr.plain j _ => i == j
  | GoErr.upanic m, GoErr.upanic n => m == n
  | GoErr.ptr a, GoErr.ptr b => a == b
  | _, _ => false

/-- The `errorData` struct from the source: cause, lazily resolved frames
(`none` = Go nil slice), prefix string (field `prefix` in Go; renamed since
that word is a Lean keyword), raw stack, optional metadata payload
(`*json.RawMessage`; `none` = nil pointer). -/
structure ErrorData where
  cause : GoErr
  stackFrames : Option (List StackFrame)
  pfx : String
  stack : List Nat
  metadata : Option String
  deriving Repr, DecidableEq

instance : Inhabited ErrorData :=
  ⟨⟨GoErr.nil, none, "", [], none⟩⟩

/-- The Go heap of `errorData` allocations (address = index) plus a counter
handing out fresh identities for plain errors allocated by `fmt.Errorf`. -/
structure World where
  heap : List ErrorData
  nextId : Nat
  deriving Repr, DecidableEq

/-- Dereference a `*errorData` pointer. -/
def getED (w : World) (a : Nat) : ErrorData :=
  w.heap.getD a default

/-- Store through a `*errorData` pointer (in-place heap mutation). -/
def setED (w : World) (a : Nat) (e : ErrorData) : World :=
  { w with heap := w.heap.set a e }

/-- `Error()` of a cause, fuelled (structurally on the fuel) so that heap
recursion through `ptr` causes terminates; with fuel 0 it degrades to `""`.
A `nil` cause is never dereferenced by the source (`errorData.Error` checks
`e.cause == nil` first), so the `nil` row is unreachable there.  The `ptr`
row inlines the body of `errorData.Error()` on the pointee; the lemma
`errMsg_ptr` below re-states the correspondence. -/
def errMsg (fuel : Nat) (w : World) (g : GoErr) : String :=
  match fuel with
  | 0 => ""
  | f + 1 =>
    match g with
    | GoErr.nil => ""
    | GoErr.plain _ m => m
    | GoErr.upanic m => m
    | GoErr.ptr a =>
      match (getED w a).cause with
      | GoErr.nil => ""
      | c =>
        let msg := errMsg f w c
        if (getED w a).pfx ≠ "" then (getED w a).pfx ++ ": " ++ msg else msg

/-- `errorData.Error()` (value receiver): empty when the cause is nil,
otherwise the cause's message, prepended with `prefix + ": "` when a prefix
is set. -/
def errorDataError (fuel : Nat) (w : World) (e : ErrorData) : String :=
  match e.cause with
  | GoErr.nil => ""
  | c =>
    let msg := errMsg fuel w c
    if e.pfx ≠ "" then e.pfx ++ ": " ++ msg else msg

/-- Calling `Error()` through a `ptr` cause is calling `errorData.Error()`
on the pointee. -/
theorem errMsg_ptr (f : Nat) (w : World) (a : Nat) :
    errMsg (f + 1) w (GoErr.ptr a) = errorDataError f w (getED w a) := by
  cases h : (getED w a).cause <;> simp [errMsg, errorDataError, h]

/-- `errorData.Type()` (value receiver): `""` for a nil cause, the literal
`"panic"` when the cause is the `uncaughtPanic` marker, otherwise the
reflected concrete type name of the cause. -/
def errorDataType (e : ErrorData) : String :=
  match e.cause with
  | GoErr.nil => ""
  | GoErr.upanic _ => "panic"
  | GoErr.plain _ _ => "*errors.errorString"
  | GoErr.ptr _ => "*errorx.errorData"

/-- A resolver oracle stands for `NewStackFrame` (symbolisation through
`runtime.FuncForPC`/`FileLine`, an external runtime capability): it maps a
raw program counter to the frame the runtime resolves it to. -/
abbrev Resolver := Nat → StackFrame

/-- The body of `errorData.StackFrames()`: if the cached slice is nil,
resolve one frame per raw program counter, in order, and assign the result
to the receiver's `stackFrames` field; return the cache.  The second
component is the receiver struct after the body ran. -/
def stackFramesBody (resolve : Resolver) (e : ErrorData) : List StackFrame × ErrorData :=
  match e.stackFrames with
  | some fs => (fs, e)
  | none =>
    let fs := e.stack.map resolve
    (fs, { e with stackFrames := some fs })

/-- `errorData.StackFrames()` as seen by a caller.  The Go receiver is a
VALUE receiver (`func (e errorData) StackFrames()`), so the method runs on a
copy of the struct and the updated copy — the second component of
`stackFramesBody` — is discarded when the method returns. -/
def StackFrames (resolve : Resolver) (e : ErrorData) : List StackFrame :=
  (stackFramesBody resolve e).1

/-- A call `err.StackFrames()` through a `*errorData` pointer: Go
auto-dereferences and copies the struct for the value receiver, so the heap
is returned unchanged. -/
def callStackFrames (resolve : Resolver) (w : World) (a : Nat) :
    List StackFrame × World :=
  ( StackFrames resolve (getED w a), w)

/-! ### JSON serialization -/

/-- A small JSON-value tree; `raw` stands for a `json.RawMessage` payload
spliced verbatim. -/
inductive Json where
  | str : String → Json
  | num : Int → Json
  | arr : List Json → Json
  | obj : List (String × Json) → Json
  | raw : String → Json

/-- JSON encoding of one `StackFrame`: its field tags carry no `omitempty`,
so every key is always present. -/
def frameJson (f : StackFrame) : Json :=
  Json.obj
    [("file", Json.str f.File),
     ("line_number", Json.num f.LineNumber),
     ("name", Json.str f.Name),
     ("package", Json.str f.Package),
     ("program_counter", Json.num (Int.ofNat f.ProgramCounter))]

/-- The `errorJSONObject` struct: all five fields are tagged `omitempty`. -/
structure ErrorJSONObject where
  Cause : String
  StackFrames : List StackFrame
  Stack : List Nat
  Prefix : String
  Metadata : Option String
  deriving Repr, DecidableEq

/-- `errorData.jsonObject()`: copies `Error()`, `StackFrames()`, `Stack()`
and `Prefix()` into the struct.  The struct's `Metadata` field is NOT
assigned in the source, so it keeps Go's zero value, a nil pointer. -/
def jsonObject (resolve : Resolver) (fuel : Nat) (w : World) (e : ErrorData) :
    ErrorJSONObject :=
  { Cause := errorDataError fuel w e
    StackFrames := StackFrames resolve e
    Stack := e.stack
    Prefix := e.pfx
    Metadata := none }

/-- `encoding/json` marshalling of `errorJSONObject` honouring `omitempty`:
an empty string, an empty/nil slice and a nil pointer are omitted. -/
def marshalJSONObject (o : ErrorJSONObject) : Json :=
  Json.obj
    ((if o.Cause = "" then [] else [("cause", Json.str o.Cause)]) ++
     (if o.StackFrames.isEmpty then []
      else [("stack_frames", Json.arr (o.StackFrames.map frameJson))]) ++
     (if o.Stack.isEmpty then []
      else [("stack", Json.arr (o.Stack.map (fun n => Json.num (Int.ofNat n))))]) ++
     (if o.Prefix = "" then [] else [("prefix", Json.str o.Prefix)]) ++
     (match o.Metadata with
      | none => []
      | some m => [("metadata", Json.raw m)]))

/-- `errorData.MarshalJSON()` (value receiver): marshal the `jsonObject`. -/
def MarshalJSON (resolve : Resolver) (fuel : Nat) (w : World) (e : ErrorData) : Json :=
  marshalJSONObject (jsonObject resolve fuel w e)

/-- The keys of a marshalled JSON object. -/
def jsonKeys : Json → List String
  | Json.obj kvs => kvs.map (fun kv => kv.1)
  | _ => []

/-! ### Mutating methods (pointer receivers) -/

/-- `(*errorData).setPrefix`: in-place mutation through the pointer. -/
def setPrefix (w : World) (a : Nat) (p : String) : World :=
  setED w a { getED w a with pfx := p }

/-- `(*errorData).SetMetadata`: replaces the metadata pointer wholesale and
always returns a nil error (elided here). -/
def SetMetadata (w : World) (a : Nat) (m : Option String) : World :=
  setED w a { getED w a with metadata := m }

/-! ### Construction API -/

/-- `MaxStackDepth`, the module-wide stack-capture cap. -/
def MaxStackDepth : Nat := 50

/-- A Go `any` argument to the construction API: either an `error` interface
value or some non-error value, abstracted to the string `fmt.Errorf("%v", e)`
would render for it. -/
inductive GoVal where
  | ofErr : GoErr → GoVal
  | raw : String → GoVal
  deriving Repr, DecidableEq

/-- `fmt.Errorf` with no `%w` verb: allocates a fresh plain error carrying
the rendered message. -/
def allocPlain (w : World) (msg : String) : GoErr × World :=
  (GoErr.plain w.nextId msg, { w with nextId := w.nextId + 1 })

/-- Allocate a fresh `&errorData{cause: c, stack: captured}`; the captured
stack is `runtime.Callers` output truncated to the `MaxStackDepth`-sized
buffer.  `avail` is the full caller list the runtime could produce at the
capture point. -/
def allocED (w : World) (c : GoErr) (avail : List Nat) : Nat × World :=
  (w.heap.length,
   { w with
     heap := w.heap ++
       [{ cause := c, stackFrames := none, pfx := "",
          stack := avail.take MaxStackDepth, metadata := none }] })

/-- The stack-capture oracle: for a given skip count, the full list of
caller program counters `runtime.Callers` sees at the call site. -/
abbrev Callers := Nat → List Nat

/-- `NewError(newError any)`: an `error` argument is used directly as the
cause (including a `*errorData` — no short-circuit here), anything else goes
through `fmt.Errorf("%v", ...)`; a fresh stack is always captured (skip 2 =
the immediate caller). -/
def NewError (w : World) (v : GoVal) (oracle : Callers) : Nat × World :=
  match v with
  | GoVal.ofErr GoErr.nil =>
    let (c, w1) := allocPlain w "<nil>"
    allocED w1 c (oracle 0)
  | GoVal.ofErr g => allocED w g (oracle 0)
  | GoVal.raw s =>
    let (c, w1) := allocPlain w s
    allocED w1 c (oracle 0)

/-- `New(str string)`: `NewError(fmt.Errorf(str))`. -/
def New (w : World) (s : String) (oracle : Callers) : Nat × World :=
  let (c, w1) := allocPlain w s
  NewError w1 (GoVal.ofErr c) oracle

/-- `Wrap(errToWrap any, stackToSkip int)`: a `*errorData` is returned
unchanged (no allocation, no capture); any other `error` is used as the
cause; anything else is coerced through `fmt.Errorf("%v", ...)`; then a
fresh stack is captured with `runtime.Callers(2+skip, ...)`. -/
def Wrap (w : World) (v : GoVal) (skip : Nat) (oracle : Callers) : Nat × World :=
  match v with
  | GoVal.ofErr (GoErr.ptr a) => (a, w)
  | GoVal.ofErr GoErr.nil =>
    let (c, w1) := allocPlain w "<nil>"
    allocED w1 c (oracle skip)
  | GoVal.ofErr g => allocED w g (oracle skip)
  | GoVal.raw s =>
    let (c, w1) := allocPlain w s
    allocED w1 c (oracle skip)

/-- `WrapPrefix(e any, prefix string, skip int)`: wrap, then combine the
prefix — `prefix + ": " + existing` when an existing prefix is non-empty,
else just `prefix` — and store it through `setPrefix`. -/
def WrapPrefix (w : World) (v : GoVal) (p : String) (skip : Nat) (oracle : Callers) :
    Nat × World :=
  let (a, w1) := Wrap w v skip oracle
  if (getED w1 a).pfx ≠ "" then
    (a, setPrefix w1 a (p ++ ": " ++ (getED w1 a).pfx))
  else
    (a, setPrefix w1 a p)

/-- `Errorf(format, args...)`: `Wrap(fmt.Errorf(format, a...), 2)`; `s` is
the formatted message. -/
def Errorf (w : World) (s : String) (oracle : Callers) : Nat × World :=
  let (c, w1) := allocPlain w s
  Wrap w1 (GoVal.ofErr c) 2 oracle

/-! ### Cause-chain equality -/

/-- `Is(comparedTo, target)`, fuelled (the heap recursion through `ptr`
causes is not structural; with fuel 0 it degrades to `false`).  Identity
first; then descend into the candidate's cause when it is an Error Value
(only `*errorData` implements the `Error` interface); then into the
target's cause when the target is a `*errorData`; else `false`. -/
def IsF (fuel : Nat) (w : World) (comparedTo target : GoErr) : Bool :=
  match fuel with
  | 0 => false
  | f + 1 =>
    if goEq comparedTo target then true
    else
      match comparedTo with
      | GoErr.ptr a => IsF f w (getED w a).cause target
      | _ =>
        match target with
        | GoErr.ptr b => IsF f w comparedTo (getED w b).cause
        | _ => false

/-! ### String helpers for the panic parser

Go slices strings by byte index, but every index used by the parser is the
position of a one-byte ASCII character found in the string, so slicing over
the character list `String.data` yields the same substrings. -/

/-- `strings.Split(s, "\n")` over a character list; never returns `[]`. -/
def splitNl : List Char → List (List Char)
  | [] => [[]]
  | c :: cs =>
    if c = '\n' then [] :: splitNl cs
    else
      match splitNl cs with
      | l :: ls => (c :: l) :: ls
      | [] => [[c]]

/-- Index of the last occurrence of a character (`strings.LastIndex` with a
one-character needle); `none` for Go's `-1`. -/
def lastIdx (c : Char) : List Char → Option Nat
  | [] => none
  | x :: xs =>
    match lastIdx c xs with
    | some i => some (i + 1)
    | none => if x = c then some 0 else none

/-- Index of the first occurrence of a two-character pattern
(`strings.Index(s, " +")`); `none` for Go's `-1`. -/
def idxOfSub (pat : List Char) : List Char → Option Nat
  | [] => none
  | x :: xs =>
    if pat.isPrefixOf (x :: xs) then some 0
    else (idxOfSub pat xs).map (· + 1)

/-- `strings.Replace(name, "·", ".", -1)`: the needle is a single
character, so this is a map. -/
def replaceDot (s : List Char) : List Char :=
  s.map (fun c => if c = '·' then '.' else c)

/-- The digit string value for `strconv.ParseInt(s, 10, 32)`; `none` when
`s` is empty or contains a non-digit. -/
def digitsVal : List Char → Option Nat
  | [] => none
  | cs =>
    if cs.all (fun c => c.isDigit) then
      some (cs.foldl (fun n c => n * 10 + (c.toNat - 48)) 0)
    else none

/-- `strconv.ParseInt(s, 10, 32)`: optional sign, digits, 32-bit range. -/
def parseInt32 : List Char → Option Int
  | '+' :: rest =>
    (digitsVal rest).bind fun v =>
      if v ≤ 2 ^ 31 - 1 then some (Int.ofNat v) else none
  | '-' :: rest =>
    (digitsVal rest).bind fun v =>
      if v ≤ 2 ^ 31 then some (-(Int.ofNat v)) else none
  | cs =>
    (digitsVal cs).bind fun v =>
      if v ≤ 2 ^ 31 - 1 then some (Int.ofNat v) else none

/-- `bytes.Trim(b, " \t")`: drop leading and trailing spaces and tabs. -/
def trimCut (cs : List Char) : List Char :=
  (((cs.dropWhile fun c => c = ' ' || c = '\t').reverse.dropWhile
      fun c => c = ' ' || c = '\t')).reverse

/-! ### Panic text parser -/

/-- The remainder of `parsePanicFrame` after the parenthesis strip, with
`name` the bare symbol text. -/
def parsePanicFrameName (name1 line : List Char) : Except String StackFrame :=
  let (pkg1, n1) :=
    match lastIdx '/' name1 with
    | some i => (name1.take i ++ ['/'], name1.drop (i + 1))
    | none => (([] : List Char), name1)
  let (pkg2, n2) :=
    match List.findIdx? (fun c => c = '.') n1 with
    | some j => (pkg1 ++ n1.take j, n1.drop (j + 1))
    | none => (pkg1, n1)
  let n3 := replaceDot n2
  match line with
  | '\t' :: _ =>
    (match lastIdx ':' line with
     | none =>
       Except.error ("errorx.PanicParser: Invalid line (no line number): " ++ String.mk line)
     | some idx =>
       let file := (line.drop 1).take (idx - 1)
       let number0 := line.drop (idx + 1)
       let number :=
         match idxOfSub [' ', '+'] number0 with
         | some k => number0.take k
         | none => number0
       match parseInt32 number with
       | none =>
         Except.error ("errorx.PanicParser: Invalid line (bad line number): " ++ String.mk line)
       | some lno =>
         Except.ok
           { File := String.mk file, LineNumber := lno,
             Name := String.mk n3, Package := String.mk pkg2,
             ProgramCounter := 0 })
  | _ =>
    Except.error ("errorx.PanicParser: Invalid line (no tab): " ++ String.mk line)

/-- `parsePanicFrame(name, line, createdBy)`: strip the trailing call
parenthesis group, split the symbol into package and bare name (last `/`,
then first `.`), normalise the linker middle-dot, then require a leading tab
on the location line, split it at its last colon into file and line number,
trim a trailing `" +0x…"` offset, and parse the number. -/
def parsePanicFrame (name0 line : List Char) (createdBy : Bool) :
    Except String StackFrame :=
  match lastIdx '(' name0 with
  | none =>
    if !createdBy then
      Except.error ("errorx.PanicParser: Invalid line (no call): " ++ String.mk name0)
    else parsePanicFrameName name0 line
  | some i => parsePanicFrameName (name0.take i) line

/-- The parser's states. -/
inductive PState where
  | start
  | seek
  | parsing
  | done
  deriving Repr, DecidableEq

/-- The `ParsePanic` line loop: in `start` the first line must carry the
`"panic: "` prefix (its remainder becomes the message); `seek` discards
lines until the `goroutine … [running]:` marker; `parsing` consumes two
lines per frame (an empty line or a `created by` frame ends parsing),
failing on an unpaired trailing line or a malformed frame. -/
def runParse (st : PState) (msg : String) (stk : List StackFrame) :
    List (List Char) → Except String (PState × String × List StackFrame)
  | [] => Except.ok (st, msg, stk)
  | l :: rest =>
    match st with
    | PState.start =>
      if ("panic: ".data).isPrefixOf l then
        runParse PState.seek (String.mk (l.drop 7)) stk rest
      else
        Except.error ("errorx.PanicParser: Invalid line (no prefix): " ++ String.mk l)
    | PState.seek =>
      if ("goroutine ".data).isPrefixOf l && ("[running]:".data).isSuffixOf l then
        runParse PState.parsing msg stk rest
      else
        runParse PState.seek msg stk rest
    | PState.parsing =>
      if l = [] then Except.ok (PState.done, msg, stk)
      else
        let createdBy := ("created by ".data).isPrefixOf l
        let l1 := if createdBy then l.drop 11 else l
        match rest with
        | [] =>
          Except.error ("errorx.PanicParser: Invalid line (unpaired): " ++ String.mk l1)
        | l2 :: rest2 =>
          match parsePanicFrame l1 l2 createdBy with
          | Except.error e => Except.error e
          | Except.ok fr =>
            if createdBy then Except.ok (PState.done, msg, stk ++ [fr])
            else runParse PState.parsing msg (stk ++ [fr]) rest2
    | PState.done => Except.ok (PState.done, msg, stk)

/-- `ParsePanic(text)`: run the state machine over the lines; success
requires ending in `done` or `parsing`, and yields `(&errorData{cause:
uncaughtPanic{message}, stackFrames: stack}, nil)` — the frame cache is
pre-populated (a Go nil slice when no frame was appended), the raw stack is
empty.  Failure yields `(nil, parse error)`: all-or-nothing. -/
def ParsePanic (s : String) : Option ErrorData × Option String :=
  match runParse PState.start "" [] (splitNl s.data) with
  | Except.error m => (none, some m)
  | Except.ok (st, msg, stk) =>
    if st = PState.done ∨ st = PState.parsing then
      (some { cause := GoErr.upanic msg,
              stackFrames := if stk.isEmpty then none else some stk,
              pfx := "", stack := [], metadata := none }, none)
    else (none, some ("could not parse panic: " ++ s))

/-! ### Source-line lookup -/

/-- `StackFrame.SourceLine()`: read the file (the filesystem is an oracle;
a read failure carries the `error` value `os.ReadFile` returned), split on
newlines; out-of-range line numbers give the placeholder `"???"`; a read
failure returns `("", NewError(err))` — the allocation identity and the
stack `NewError` captures inside the wrapper are abstracted by `avail`. -/
def SourceLine (readFile : String → Except GoErr (List Char)) (avail : List Nat)
    (f : StackFrame) : String × Option ErrorData :=
  match readFile f.File with
  | Except.error e =>
    ("", some { cause := e, stackFrames := none, pfx := "",
                stack := avail.take MaxStackDepth, metadata := none })
  | Except.ok data =>
    let lines := splitNl data
    if f.LineNumber ≤ 0 ∨ (lines.length : Int) ≤ f.LineNumber then
      ("???", none)
    else
      (String.mk (trimCut (lines.getD (f.LineNumber - 1).toNat [])), none)

/-! ### Helper lemmas -/

/-- `Wrap` short-circuits on a `*errorData`: same address, untouched world. -/
theorem wrap_ptr_eq (w : World) (a : Nat) (skip : Nat) (o : Callers) :
    Wrap w (GoVal.ofErr (GoErr.ptr a)) skip o = (a, w) := rfl

/-- Dereferencing the address a fresh allocation returned yields the
freshly allocated record. -/
theorem getED_allocED (w : World) (c : GoErr) (avail : List Nat) :
    getED (allocED w c avail).2 (allocED w c avail).1 =
      { cause := c, stackFrames := none, pfx := "",
        stack := avail.take MaxStackDepth, metadata := none } := by
  simp [getED, allocED, List.getElem?_concat_length]

/-- Reading back a store through the same valid pointer. -/
theorem getED_setED_self (w : World) (a : Nat) (e : ErrorData)
    (h : a < w.heap.length) : getED (setED w a e) a = e := by
  simp [getED, setED, List.getElem?_set_self h]

/-- A store through one pointer leaves every other pointee unchanged. -/
theorem getED_setED_ne (w : World) (a b : Nat) (e : ErrorData)
    (h : b ≠ a) : getED (setED w a e) b = getED w b := by
  simp [getED, setED, List.getElem?_set_ne (fun hc => h hc.symm)]

/-- A fresh allocation's address is valid in the new heap. -/
theorem allocED_lt (w : World) (c : GoErr) (avail : List Nat) :
    (allocED w c avail).1 < (allocED w c avail).2.heap.length := by
  simp [allocED]

/-- A fresh `Wrap` (input not already a `*errorData`) allocates at the end
of the heap and captures `runtime.Callers` output truncated to
`MaxStackDepth`. -/
theorem wrap_fresh (w : World) (v : GoVal) (skip : Nat) (o : Callers)
    (h : ∀ a, v ≠ GoVal.ofErr (GoErr.ptr a)) :
    (getED (Wrap w v skip o).2 (Wrap w v skip o).1).stack =
        (o skip).take MaxStackDepth ∧
    (getED (Wrap w v skip o).2 (Wrap w v skip o).1).pfx = "" ∧
    (getED (Wrap w v skip o).2 (Wrap w v skip o).1).stackFrames = none ∧
    (getED (Wrap w v skip o).2 (Wrap w v skip o).1).metadata = none ∧
    (Wrap w v skip o).1 < (Wrap w v skip o).2.heap.length ∧
    (getED (Wrap w v skip o).2 (Wrap w v skip o).1).cause ≠ GoErr.nil := by
  cases v with
  | ofErr g =>
    cases g with
    | nil =>
      rw [show Wrap w (GoVal.ofErr GoErr.nil) skip o =
            allocED { w with nextId := w.nextId + 1 }
              (GoErr.plain w.nextId "<nil>") (o skip) from rfl]
      exact ⟨by rw [getED_allocED], by rw [getED_allocED], by rw [getED_allocED],
             by rw [getED_allocED], allocED_lt _ _ _, by rw [getED_allocED]; simp⟩
    | plain i m =>
      rw [show Wrap w (GoVal.ofErr (GoErr.plain i m)) skip o =
            allocED w (GoErr.plain i m) (o skip) from rfl]
      exact ⟨by rw [getED_allocED], by rw [getED_allocED], by rw [getED_allocED],
             by rw [getED_allocED], allocED_lt _ _ _, by rw [getED_allocED]; simp⟩
    | upanic m =>
      rw [show Wrap w (GoVal.ofErr (GoErr.upanic m)) skip o =
            allocED w (GoErr.upanic m) (o skip) from rfl]
      exact ⟨by rw [getED_allocED], by rw [getED_allocED], by rw [getED_allocED],
             by rw [getED_allocED], allocED_lt _ _ _, by rw [getED_allocED]; simp⟩
    | ptr a => exact absurd rfl (h a)
  | raw s =>
    rw [show Wrap w (GoVal.raw s) skip o =
          allocED { w with nextId := w.nextId + 1 }
            (GoErr.plain w.nextId s) (o skip) from rfl]
    exact ⟨by rw [getED_allocED], by rw [getED_allocED], by rw [getED_allocED],
           by rw [getED_allocED], allocED_lt _ _ _, by rw [getED_allocED]; simp⟩

/-- A fresh `NewError` always captures a stack — even when handed a
`*errorData` (no short-circuit in `NewError`). -/
theorem newError_fresh_stack (w : World) (v : GoVal) (o : Callers) :
    (getED (NewError w v o).2 (NewError w v o).1).stack =
      (o 0).take MaxStackDepth := by
  cases v with
  | ofErr g =>
    cases g with
    | nil =>
      rw [show NewError w (GoVal.ofErr GoErr.nil) o =
            allocED { w with nextId := w.nextId + 1 }
              (GoErr.plain w.nextId "<nil>") (o 0) from rfl, getED_allocED]
    | plain i m =>
      rw [show NewError w (GoVal.ofErr (GoErr.plain i m)) o =
            allocED w (GoErr.plain i m) (o 0) from rfl, getED_allocED]
    | upanic m =>
      rw [show NewError w (GoVal.ofErr (GoErr.upanic m)) o =
            allocED w (GoErr.upanic m) (o 0) from rfl, getED_allocED]
    | ptr a =>
      rw [show NewError w (GoVal.ofErr (GoErr.ptr a)) o =
            allocED w (GoErr.ptr a) (o 0) from rfl, getED_allocED]
  | raw s =>
    rw [show NewError w (GoVal.raw s) o =
          allocED { w with nextId := w.nextId + 1 }
            (GoErr.plain w.nextId s) (o 0) from rfl, getED_allocED]

/-- `errorData.Error()` with a non-nil cause, stated without the match. -/
theorem errorDataError_eq (fuel : Nat) (w : World) (e : ErrorData)
    (hc : e.cause ≠ GoErr.nil) :
    errorDataError fuel w e =
      if e.pfx ≠ "" then e.pfx ++ ": " ++ errMsg fuel w e.cause
      else errMsg fuel w e.cause := by
  rcases h : e.cause with _ | ⟨i, m⟩ | m | b
  · exact absurd h hc
  all_goals rw [errorDataError, h]

/-- `Error()` of an error value with a non-nil cause always starts with its
own prefix. -/
theorem errorDataError_starts_with_pfx (fuel : Nat) (w : World) (e : ErrorData)
    (hc : e.cause ≠ GoErr.nil) :
    ∃ rest, errorDataError fuel w e = e.pfx ++ rest := by
  rw [errorDataError_eq fuel w e hc]
  by_cases hp : e.pfx = ""
  · exact ⟨errMsg fuel w e.cause, by simp [hp]⟩
  · exact ⟨": " ++ errMsg fuel w e.cause, by simp [hp, String.append_assoc]⟩

/-! ### Claim theorems -/

/-- C3: wrapping is idempotent — `Wrap(Wrap(x, s1), s2)` returns the very
value `Wrap(x, s1)` returned, with the world (hence the instance's stack,
prefix and metadata) untouched and no new stack captured; in general `Wrap`
on an existing `*errorData` returns it unchanged. -/
theorem wrap_idempotent :
    (∀ (w : World) (x : GoVal) (s1 s2 : Nat) (o1 o2 : Callers),
      Wrap (Wrap w x s1 o1).2 (GoVal.ofErr (GoErr.ptr (Wrap w x s1 o1).1)) s2 o2 =
        Wrap w x s1 o1) ∧
    (∀ (w : World) (a : Nat) (skip : Nat) (o : Callers),
      Wrap w (GoVal.ofErr (GoErr.ptr a)) skip o = (a, w)) :=
  ⟨fun _ _ _ _ _ _ => rfl, fun w a skip o => wrap_ptr_eq w a skip o⟩

/-- C9: every construction call that captures a stack (`New`, `NewError`,
`Wrap` and `WrapPrefix` on inputs that are not already Error Values, and
`Errorf`) stores exactly the first `MaxStackDepth` caller program counters,
in order, however deep the true caller list is — so `Stack()` never exceeds
`MaxStackDepth` and is an order-preserving prefix of the callers; `Wrap` on
an existing Error Value captures nothing at all. -/
theorem stack_capture_bounded :
    (∀ (w : World) (s : String) (o : Callers),
      (getED (New w s o).2 (New w s o).1).stack = (o 0).take MaxStackDepth ∧
      (getED (New w s o).2 (New w s o).1).stack.length ≤ MaxStackDepth) ∧
    (∀ (w : World) (v : GoVal) (o : Callers),
      (getED (NewError w v o).2 (NewError w v o).1).stack =
          (o 0).take MaxStackDepth ∧
      (getED (NewError w v o).2 (NewError w v o).1).stack.length ≤ MaxStackDepth) ∧
    (∀ (w : World) (v : GoVal) (skip : Nat) (o : Callers),
      (∀ a, v ≠ GoVal.ofErr (GoErr.ptr a)) →
      (getED (Wrap w v skip o).2 (Wrap w v skip o).1).stack =
          (o skip).take MaxStackDepth ∧
      (getED (Wrap w v skip o).2 (Wrap w v skip o).1).stack.length ≤ MaxStackDepth) ∧
    (∀ (w : World) (a : Nat) (skip : Nat) (o : Callers),
      Wrap w (GoVal.ofErr (GoErr.ptr a)) skip o = (a, w)) ∧
    (∀ (w : World) (v : GoVal) (p : String) (skip : Nat) (o : Callers),
      (∀ a, v ≠ GoVal.ofErr (GoErr.ptr a)) →
      (getED (WrapPrefix w v p skip o).2 (WrapPrefix w v p skip o).1).stack =
          (o skip).take MaxStackDepth ∧
      (getED (WrapPrefix w v p skip o).2
          (WrapPrefix w v p skip o).1).stack.length ≤ MaxStackDepth) ∧
    (∀ (w : World) (s : String) (o : Callers),
      (getED (Errorf w s o).2 (Errorf w s o).1).stack = (o 2).take MaxStackDepth ∧
      (getED (Errorf w s o).2 (Errorf w s o).1).stack.length ≤ MaxStackDepth) := by
  refine ⟨fun w s o => ?_, fun w v o => ?_, fun w v skip o h => ?_,
          fun w a skip o => wrap_ptr_eq w a skip o, fun w v p skip o h => ?_,
          fun w s o => ?_⟩
  · have hs := newError_fresh_stack { w with nextId := w.nextId + 1 }
      (GoVal.ofErr (GoErr.plain w.nextId s)) o
    exact ⟨hs, hs ▸ List.length_take_le _ _⟩
  · have hs := newError_fresh_stack w v o
    exact ⟨hs, hs ▸ List.length_take_le _ _⟩
  · have hs := (wrap_fresh w v skip o h).1
    exact ⟨hs, hs ▸ List.length_take_le _ _⟩
  · obtain ⟨hstack, hpfx, _, _, hlt, _⟩ := wrap_fresh w v skip o h
    have heq : WrapPrefix w v p skip o =
        ((Wrap w v skip o).1,
         setPrefix (Wrap w v skip o).2 (Wrap w v skip o).1 p) := by
      rw [show WrapPrefix w v p skip o =
            (if (getED (Wrap w v skip o).2 (Wrap w v skip o).1).pfx ≠ "" then
              ((Wrap w v skip o).1,
               setPrefix (Wrap w v skip o).2 (Wrap w v skip o).1
                 (p ++ ": " ++ (getED (Wrap w v skip o).2 (Wrap w v skip o).1).pfx))
            else
              ((Wrap w v skip o).1,
               setPrefix (Wrap w v skip o).2 (Wrap w v skip o).1 p)) from rfl,
          hpfx]
      simp
    rw [heq]
    have hget : getED (setPrefix (Wrap w v skip o).2 (Wrap w v skip o).1 p)
        (Wrap w v skip o).1 =
        { getED (Wrap w v skip o).2 (Wrap w v skip o).1 with pfx := p } :=
      getED_setED_self _ _ _ hlt
    rw [hget]
    exact ⟨hstack, hstack ▸ List.length_take_le _ _⟩
  · have hs : (getED (Errorf w s o).2 (Errorf w s o).1).stack =
        (o 2).take MaxStackDepth := by
      rw [show Errorf w s o =
            allocED { w with nextId := w.nextId + 1 }
              (GoErr.plain w.nextId s) (o 2) from rfl, getED_allocED]
    exact ⟨hs, hs ▸ List.length_take_le _ _⟩

/-- C9 witness: a concrete call site with 60 available callers keeps only
the first `MaxStackDepth = 50`. -/
theorem stack_capture_bounded_witness :
    (∀ a, GoVal.raw "x" ≠ GoVal.ofErr (GoErr.ptr a)) ∧
    (getED (Wrap ⟨[], 0⟩ (GoVal.raw "x") 0 fun _ => List.range 60).2
        (Wrap ⟨[], 0⟩ (GoVal.raw "x") 0 fun _ => List.range 60).1).stack =
      (List.range 60).take MaxStackDepth :=
  ⟨fun _ h => GoVal.noConfusion h,
   (stack_capture_bounded.2.2.1 ⟨[], 0⟩ (GoVal.raw "x") 0 (fun _ => List.range 60)
      (fun _ h => GoVal.noConfusion h)).1⟩

/-- C10: `WrapPrefix` on a value that is already a `*errorData` returns the
identical instance and mutates that instance's prefix field in place — the
combined prefix is visible through the original reference `a`, and through
`Error()` called on it — while cause, raw stack, resolved frames and
metadata are untouched, as is every other heap cell. -/
theorem wrapPrefix_in_place_mutation (w : World) (a : Nat) (p : String)
    (skip : Nat) (o : Callers) (ha : a < w.heap.length) :
    (WrapPrefix w (GoVal.ofErr (GoErr.ptr a)) p skip o).1 = a ∧
    (getED (WrapPrefix w (GoVal.ofErr (GoErr.ptr a)) p skip o).2 a).pfx =
      (if (getED w a).pfx = "" then p else p ++ ": " ++ (getED w a).pfx) ∧
    (getED (WrapPrefix w (GoVal.ofErr (GoErr.ptr a)) p skip o).2 a).cause =
      (getED w a).cause ∧
    (getED (WrapPrefix w (GoVal.ofErr (GoErr.ptr a)) p skip o).2 a).stack =
      (getED w a).stack ∧
    (getED (WrapPrefix w (GoVal.ofErr (GoErr.ptr a)) p skip o).2 a).stackFrames =
      (getED w a).stackFrames ∧
    (getED (WrapPrefix w (GoVal.ofErr (GoErr.ptr a)) p skip o).2 a).metadata =
      (getED w a).metadata ∧
    (∀ b, b ≠ a →
      getED (WrapPrefix w (GoVal.ofErr (GoErr.ptr a)) p skip o).2 b = getED w b) ∧
    (∀ fuel, (getED w a).cause ≠ GoErr.nil →
      ∃ rest,
        errorDataError fuel (WrapPrefix w (GoVal.ofErr (GoErr.ptr a)) p skip o).2
          (getED (WrapPrefix w (GoVal.ofErr (GoErr.ptr a)) p skip o).2 a) =
          p ++ rest) := by
  have hred : WrapPrefix w (GoVal.ofErr (GoErr.ptr a)) p skip o =
      (if (getED w a).pfx ≠ "" then
        (a, setPrefix w a (p ++ ": " ++ (getED w a).pfx))
      else (a, setPrefix w a p)) := rfl
  by_cases hp0 : (getED w a).pfx = ""
  · rw [hred, if_neg (by simp [hp0])]
    have hget : getED (setPrefix w a p) a = { getED w a with pfx := p } :=
      getED_setED_self _ _ _ ha
    refine ⟨rfl, ?_, ?_, ?_, ?_, ?_, ?_, ?_⟩
    · rw [hget, if_pos hp0]
    · rw [hget]
    · rw [hget]
    · rw [hget]
    · rw [hget]
    · exact fun b hb => getED_setED_ne _ _ _ _ hb
    · intro fuel hc
      obtain ⟨rest, hr⟩ := errorDataError_starts_with_pfx fuel
        (setPrefix w a p) (getED (setPrefix w a p) a) (by rw [hget]; exact hc)
      exact ⟨rest, by rw [hr, hget]⟩
  · rw [hred, if_pos (by simp [hp0])]
    have hget : getED (setPrefix w a (p ++ ": " ++ (getED w a).pfx)) a =
        { getED w a with pfx := p ++ ": " ++ (getED w a).pfx } :=
      getED_setED_self _ _ _ ha
    refine ⟨rfl, ?_, ?_, ?_, ?_, ?_, ?_, ?_⟩
    · rw [hget, if_neg hp0]
    · rw [hget]
    · rw [hget]
    · rw [hget]
    · rw [hget]
    · exact fun b hb => getED_setED_ne _ _ _ _ hb
    · intro fuel hc
      obtain ⟨rest, hr⟩ := errorDataError_starts_with_pfx fuel
        (setPrefix w a (p ++ ": " ++ (getED w a).pfx))
        (getED (setPrefix w a (p ++ ": " ++ (getED w a).pfx)) a)
        (by rw [hget]; exact hc)
      refine ⟨": " ++ (getED w a).pfx ++ rest, ?_⟩
      rw [hr, hget]
      show p ++ ": " ++ (getED w a).pfx ++ rest = p ++ (": " ++ (getED w a).pfx ++ rest)
      simp [String.append_assoc]

/-- C10 witness: a one-cell heap holding a prefix-free error; `WrapPrefix`
with `"ctx"` rewrites the cell's prefix in place. -/
theorem wrapPrefix_in_place_mutation_witness :
    0 < (World.mk [⟨GoErr.plain 0 "m", none, "", [], none⟩] 1).heap.length ∧
    (getED (WrapPrefix ⟨[⟨GoErr.plain 0 "m", none, "", [], none⟩], 1⟩
        (GoVal.ofErr (GoErr.ptr 0)) "ctx" 0 fun _ => []).2 0).pfx =
      (if (getED ⟨[⟨GoErr.plain 0 "m", none, "", [], none⟩], 1⟩ 0).pfx = ""
       then "ctx"
       else "ctx" ++ ": " ++ (getED ⟨[⟨GoErr.plain 0 "m", none, "", [], none⟩], 1⟩ 0).pfx) :=
  ⟨by decide,
   (wrapPrefix_in_place_mutation ⟨[⟨GoErr.plain 0 "m", none, "", [], none⟩], 1⟩
      0 "ctx" 0 (fun _ => []) (by decide)).2.1⟩

/-- A concatenation whose left part is non-empty is non-empty. -/
theorem append_ne_empty_left (a b : String) (h : a ≠ "") : a ++ b ≠ "" := by
  intro hh
  apply h
  apply String.ext
  have := congrArg String.data hh
  simp at this
  exact this.1

/-- `WrapPrefix` in terms of `Wrap` and the prefix-combination rule, for
any input whose `*errorData` pointers are valid: same address as `Wrap`,
the wrapped record with its prefix replaced by the combined prefix, and a
still-valid address. -/
theorem wrapPrefix_pfx (w : World) (v : GoVal) (p : String) (skip : Nat)
    (o : Callers)
    (hvalid : ∀ a, v = GoVal.ofErr (GoErr.ptr a) → a < w.heap.length) :
    (WrapPrefix w v p skip o).1 = (Wrap w v skip o).1 ∧
    getED (WrapPrefix w v p skip o).2 (WrapPrefix w v p skip o).1 =
      { getED (Wrap w v skip o).2 (Wrap w v skip o).1 with
        pfx := if (getED (Wrap w v skip o).2 (Wrap w v skip o).1).pfx = "" then p
               else p ++ ": " ++ (getED (Wrap w v skip o).2 (Wrap w v skip o).1).pfx } ∧
    (WrapPrefix w v p skip o).1 < (WrapPrefix w v p skip o).2.heap.length := by
  have hlt : (Wrap w v skip o).1 < (Wrap w v skip o).2.heap.length := by
    by_cases hvp : ∃ a, v = GoVal.ofErr (GoErr.ptr a)
    · obtain ⟨a, rfl⟩ := hvp
      rw [wrap_ptr_eq]
      exact hvalid a rfl
    · exact (wrap_fresh w v skip o (fun a hh => hvp ⟨a, hh⟩)).2.2.2.2.1
  have hred : WrapPrefix w v p skip o =
      (if (getED (Wrap w v skip o).2 (Wrap w v skip o).1).pfx ≠ "" then
        ((Wrap w v skip o).1,
         setPrefix (Wrap w v skip o).2 (Wrap w v skip o).1
           (p ++ ": " ++ (getED (Wrap w v skip o).2 (Wrap w v skip o).1).pfx))
      else
        ((Wrap w v skip o).1,
         setPrefix (Wrap w v skip o).2 (Wrap w v skip o).1 p)) := rfl
  by_cases hp0 : (getED (Wrap w v skip o).2 (Wrap w v skip o).1).pfx = ""
  · rw [hred, if_neg (by simp [hp0])]
    have hget : getED (setPrefix (Wrap w v skip o).2 (Wrap w v skip o).1 p)
        (Wrap w v skip o).1 =
        { getED (Wrap w v skip o).2 (Wrap w v skip o).1 with pfx := p } :=
      getED_setED_self _ _ _ hlt
    refine ⟨rfl, ?_, ?_⟩
    · rw [hget, if_pos hp0]
    · simpa [setPrefix, setED] using hlt
  · rw [hred, if_pos (by simp [hp0])]
    have hget : getED (setPrefix (Wrap w v skip o).2 (Wrap w v skip o).1
        (p ++ ": " ++ (getED (Wrap w v skip o).2 (Wrap w v skip o).1).pfx))
        (Wrap w v skip o).1 =
        { getED (Wrap w v skip o).2 (Wrap w v skip o).1 with
          pfx := p ++ ": " ++ (getED (Wrap w v skip o).2 (Wrap w v skip o).1).pfx } :=
      getED_setED_self _ _ _ hlt
    refine ⟨rfl, ?_, ?_⟩
    · rw [hget, if_neg hp0]
    · simpa [setPrefix, setED] using hlt

/-- C4: `WrapPrefix` wraps, then sets the prefix to the new prefix when no
prefix exists and to `newPrefix + ": " + existingPrefix` otherwise (new
prefix outermost); consequently
`WrapPrefix(WrapPrefix(e, "p1", 0), "p2", 0).Error()` starts with
`"p2: p1: "` (for any skips; the input's pointers must be valid and its
cause non-nil, which holds for everything the public constructors build). -/
theorem wrapPrefix_composition :
    (∀ (w : World) (v : GoVal) (p : String) (skip : Nat) (o : Callers),
      (∀ a, v = GoVal.ofErr (GoErr.ptr a) → a < w.heap.length) →
      (getED (WrapPrefix w v p skip o).2 (WrapPrefix w v p skip o).1).pfx =
        (if (getED (Wrap w v skip o).2 (Wrap w v skip o).1).pfx = "" then p
         else p ++ ": " ++ (getED (Wrap w v skip o).2 (Wrap w v skip o).1).pfx)) ∧
    (∀ (w : World) (v : GoVal) (s1 s2 : Nat) (o1 o2 : Callers) (fuel : Nat),
      (∀ a, v = GoVal.ofErr (GoErr.ptr a) →
        a < w.heap.length ∧ (getED w a).cause ≠ GoErr.nil) →
      ∃ rest,
        errorDataError fuel
          (WrapPrefix (WrapPrefix w v "p1" s1 o1).2
            (GoVal.ofErr (GoErr.ptr (WrapPrefix w v "p1" s1 o1).1)) "p2" s2 o2).2
          (getED
            (WrapPrefix (WrapPrefix w v "p1" s1 o1).2
              (GoVal.ofErr (GoErr.ptr (WrapPrefix w v "p1" s1 o1).1)) "p2" s2 o2).2
            (WrapPrefix (WrapPrefix w v "p1" s1 o1).2
              (GoVal.ofErr (GoErr.ptr (WrapPrefix w v "p1" s1 o1).1)) "p2" s2 o2).1) =
          "p2: p1: " ++ rest) := by
  constructor
  · intro w v p skip o hvalid
    rw [(wrapPrefix_pfx w v p skip o hvalid).2.1]
  · intro w v s1 s2 o1 o2 fuel h
    obtain ⟨ha1, hE1, hlt1⟩ :=
      wrapPrefix_pfx w v "p1" s1 o1 (fun a hh => (h a hh).1)
    have hcause1 :
        (getED (Wrap w v s1 o1).2 (Wrap w v s1 o1).1).cause ≠ GoErr.nil := by
      by_cases hvp : ∃ a, v = GoVal.ofErr (GoErr.ptr a)
      · obtain ⟨a, rfl⟩ := hvp
        rw [wrap_ptr_eq]
        exact (h a rfl).2
      · exact (wrap_fresh w v s1 o1 (fun a hh => hvp ⟨a, hh⟩)).2.2.2.2.2
    obtain ⟨ha2, hE2, hlt2⟩ :=
      wrapPrefix_pfx (WrapPrefix w v "p1" s1 o1).2
        (GoVal.ofErr (GoErr.ptr (WrapPrefix w v "p1" s1 o1).1)) "p2" s2 o2
        (fun b hb => by
          injection hb with hb1
          injection hb1 with hb2
          exact hb2 ▸ hlt1)
    rw [wrap_ptr_eq] at hE2
    have hpfx1 :
        (getED (WrapPrefix w v "p1" s1 o1).2 (WrapPrefix w v "p1" s1 o1).1).pfx =
          (if (getED (Wrap w v s1 o1).2 (Wrap w v s1 o1).1).pfx = "" then "p1"
           else "p1" ++ ": " ++ (getED (Wrap w v s1 o1).2 (Wrap w v s1 o1).1).pfx) := by
      rw [hE1]
    have hcse1 :
        (getED (WrapPrefix w v "p1" s1 o1).2 (WrapPrefix w v "p1" s1 o1).1).cause =
          (getED (Wrap w v s1 o1).2 (Wrap w v s1 o1).1).cause := by
      rw [hE1]
    have hp1ne :
        (getED (WrapPrefix w v "p1" s1 o1).2 (WrapPrefix w v "p1" s1 o1).1).pfx ≠ "" := by
      rw [hpfx1]
      by_cases hpE : (getED (Wrap w v s1 o1).2 (Wrap w v s1 o1).1).pfx = ""
      · rw [if_pos hpE]; decide
      · rw [if_neg hpE]
        exact append_ne_empty_left _ _ (by decide)
    have hpfx2 :
        (getED
          (WrapPrefix (WrapPrefix w v "p1" s1 o1).2
            (GoVal.ofErr (GoErr.ptr (WrapPrefix w v "p1" s1 o1).1)) "p2" s2 o2).2
          (WrapPrefix (WrapPrefix w v "p1" s1 o1).2
            (GoVal.ofErr (GoErr.ptr (WrapPrefix w v "p1" s1 o1).1)) "p2" s2 o2).1).pfx =
          "p2" ++ ": " ++
            (getED (WrapPrefix w v "p1" s1 o1).2 (WrapPrefix w v "p1" s1 o1).1).pfx := by
      rw [hE2]
      exact if_neg hp1ne
    have hcse2 :
        (getED
          (WrapPrefix (WrapPrefix w v "p1" s1 o1).2
            (GoVal.ofErr (GoErr.ptr (WrapPrefix w v "p1" s1 o1).1)) "p2" s2 o2).2
          (WrapPrefix (WrapPrefix w v "p1" s1 o1).2
            (GoVal.ofErr (GoErr.ptr (WrapPrefix w v "p1" s1 o1).1)) "p2" s2 o2).1).cause =
          (getED (Wrap w v s1 o1).2 (Wrap w v s1 o1).1).cause := by
      rw [hE2]
      exact hcse1
    rw [errorDataError_eq _ _ _ (by rw [hcse2]; exact hcause1),
        if_pos (by rw [hpfx2]; exact append_ne_empty_left _ _ (by decide)),
        hpfx2, hcse2, hpfx1]
    by_cases hpE : (getED (Wrap w v s1 o1).2 (Wrap w v s1 o1).1).pfx = ""
    · rw [if_pos hpE]
      exact ⟨errMsg fuel
          (WrapPrefix (WrapPrefix w v "p1" s1 o1).2
            (GoVal.ofErr (GoErr.ptr (WrapPrefix w v "p1" s1 o1).1)) "p2" s2 o2).2
          (getED (Wrap w v s1 o1).2 (Wrap w v s1 o1).1).cause,
        congrArg (fun x => x ++ errMsg fuel
          (WrapPrefix (WrapPrefix w v "p1" s1 o1).2
            (GoVal.ofErr (GoErr.ptr (WrapPrefix w v "p1" s1 o1).1)) "p2" s2 o2).2
          (getED (Wrap w v s1 o1).2 (Wrap w v s1 o1).1).cause)
          (by decide : ("p2" ++ ": " ++ "p1") ++ ": " = "p2: p1: ")⟩
    · rw [if_neg hpE]
      refine ⟨(getED (Wrap w v s1 o1).2 (Wrap w v s1 o1).1).pfx ++ ": " ++
          errMsg fuel
            (WrapPrefix (WrapPrefix w v "p1" s1 o1).2
              (GoVal.ofErr (GoErr.ptr (WrapPrefix w v "p1" s1 o1).1)) "p2" s2 o2).2
            (getED (Wrap w v s1 o1).2 (Wrap w v s1 o1).1).cause, ?_⟩
      refine String.ext ?_
      simp [String.data_append, List.append_assoc]

/-- C4 witness: two concrete `WrapPrefix` calls on a fresh error; the
rendered message starts with `"p2: p1: "`. -/
theorem wrapPrefix_composition_witness :
    (∀ a, GoVal.raw "boom" = GoVal.ofErr (GoErr.ptr a) →
      a < (World.mk [] 0).heap.length ∧
        (getED (World.mk [] 0) a).cause ≠ GoErr.nil) ∧
    ∃ rest,
      errorDataError 1
        (WrapPrefix (WrapPrefix ⟨[], 0⟩ (GoVal.raw "boom") "p1" 0 fun _ => []).2
          (GoVal.ofErr
            (GoErr.ptr (WrapPrefix ⟨[], 0⟩ (GoVal.raw "boom") "p1" 0 fun _ => []).1))
          "p2" 0 fun _ => []).2
        (getED
          (WrapPrefix (WrapPrefix ⟨[], 0⟩ (GoVal.raw "boom") "p1" 0 fun _ => []).2
            (GoVal.ofErr
              (GoErr.ptr (WrapPrefix ⟨[], 0⟩ (GoVal.raw "boom") "p1" 0 fun _ => []).1))
            "p2" 0 fun _ => []).2
          (WrapPrefix (WrapPrefix ⟨[], 0⟩ (GoVal.raw "boom") "p1" 0 fun _ => []).2
            (GoVal.ofErr
              (GoErr.ptr (WrapPrefix ⟨[], 0⟩ (GoVal.raw "boom") "p1" 0 fun _ => []).1))
            "p2" 0 fun _ => []).1) = "p2: p1: " ++ rest :=
  ⟨fun _ h => GoVal.noConfusion h,
   wrapPrefix_composition.2 ⟨[], 0⟩ (GoVal.raw "boom") 0 0 (fun _ => [])
     (fun _ => []) 1 (fun _ h => GoVal.noConfusion h)⟩

/-- C5: `Is` is true on identical references (including `nil, nil`),
otherwise recurses into the candidate's cause chain, then into the
target's, and is false when both chains bottom out without an identity
match; in particular two distinct plain errors with the same message are
not `Is`-equal. -/
theorem is_identity_based :
    (∀ (fuel : Nat) (w : World) (c t : GoErr),
      goEq c t = true → IsF (fuel + 1) w c t = true) ∧
    (∀ (fuel : Nat) (w : World), IsF (fuel + 1) w GoErr.nil GoErr.nil = true) ∧
    (∀ (fuel : Nat) (w : World) (a : Nat) (t : GoErr),
      goEq (GoErr.ptr a) t = false →
      IsF (fuel + 1) w (GoErr.ptr a) t = IsF fuel w (getED w a).cause t) ∧
    (∀ (fuel : Nat) (w : World) (c : GoErr) (b : Nat),
      goEq c (GoErr.ptr b) = false → (∀ a, c ≠ GoErr.ptr a) →
      IsF (fuel + 1) w c (GoErr.ptr b) = IsF fuel w c (getED w b).cause) ∧
    (∀ (fuel : Nat) (w : World) (c t : GoErr),
      goEq c t = false → (∀ a, c ≠ GoErr.ptr a) → (∀ b, t ≠ GoErr.ptr b) →
      IsF (fuel + 1) w c t = false) ∧
    (∀ (fuel : Nat) (w : World) (i j : Nat) (m : String),
      i ≠ j → IsF fuel w (GoErr.plain i m) (GoErr.plain j m) = false) := by
  refine ⟨?_, ?_, ?_, ?_, ?_, ?_⟩
  · intro fuel w c t h
    simp [IsF, h]
  · intro fuel w
    simp [IsF, goEq]
  · intro fuel w a t h
    simp [IsF, h]
  · intro fuel w c b h hc
    cases c with
    | nil => simp [IsF, h]
    | plain i m => simp [IsF, h]
    | upanic m => simp [IsF, h]
    | ptr a => exact absurd rfl (hc a)
  · intro fuel w c t h hc ht
    cases c with
    | ptr a => exact absurd rfl (hc a)
    | nil =>
      cases t with
      | ptr b => exact absurd rfl (ht b)
      | nil => simp [goEq] at h
      | plain j m => simp [IsF, h]
      | upanic m => simp [IsF, h]
    | plain i m =>
      cases t with
      | ptr b => exact absurd rfl (ht b)
      | nil => simp [IsF, h]
      | plain j m2 => simp [IsF, h]
      | upanic m2 => simp [IsF, h]
    | upanic m =>
      cases t with
      | ptr b => exact absurd rfl (ht b)
      | nil => simp [IsF, h]
      | plain j m2 => simp [IsF, h]
      | upanic m2 => simp [IsF, h]
  · intro fuel w i j m hij
    cases fuel with
    | zero => simp [IsF]
    | succ f => simp [IsF, goEq, hij]

/-- C5 witness: `Is(nil, nil)` is true; two distinct plain errors carrying
the same message `"m"` are not equal. -/
theorem is_identity_based_witness :
    IsF 1 ⟨[], 0⟩ GoErr.nil GoErr.nil = true ∧
    (0 ≠ 1 ∧ IsF 5 ⟨[], 0⟩ (GoErr.plain 0 "m") (GoErr.plain 1 "m") = false) :=
  ⟨is_identity_based.2.1 0 ⟨[], 0⟩,
   by decide,
   is_identity_based.2.2.2.2.2 5 ⟨[], 0⟩ 0 1 "m" (by decide)⟩

/-- C6: `ParsePanic` on the well-formed dump
`"panic: boom\n\ngoroutine 1 [running]:\nmain.f()\n\t/a/b.go:10 +0x1\n"`
succeeds with no parse error, and the resulting Error Value has
`Error() == "boom"`, `Type() == "panic"`, and exactly one pre-populated
frame `{File: "/a/b.go", LineNumber: 10, Name: "f", Package: "main"}`. -/
theorem parsePanic_example :
    ParsePanic "panic: boom\n\ngoroutine 1 [running]:\nmain.f()\n\t/a/b.go:10 +0x1\n" =
      (some { cause := GoErr.upanic "boom",
              stackFrames := some [{ File := "/a/b.go", LineNumber := 10,
                                     Name := "f", Package := "main",
                                     ProgramCounter := 0 }],
              pfx := "", stack := [], metadata := none }, none) ∧
    (∀ (fuel : Nat) (w : World) (resolve : Resolver) (ed : ErrorData),
      (ParsePanic
        "panic: boom\n\ngoroutine 1 [running]:\nmain.f()\n\t/a/b.go:10 +0x1\n").1 =
          some ed →
      errorDataError (fuel + 1) w ed = "boom" ∧
      errorDataType ed = "panic" ∧
      StackFrames resolve ed =
        [{ File := "/a/b.go", LineNumber := 10, Name := "f", Package := "main",
           ProgramCounter := 0 }] ∧
      (StackFrames resolve ed).length = 1 ∧
      "main".data.isPrefixOf ((StackFrames resolve ed).getD 0 default).Package.data = true) := by
  refine ⟨by decide, ?_⟩
  intro fuel w resolve ed hed
  have : ed = { cause := GoErr.upanic "boom",
                stackFrames := some [{ File := "/a/b.go", LineNumber := 10,
                                       Name := "f", Package := "main",
                                       ProgramCounter := 0 }],
                pfx := "", stack := [], metadata := none } := by
    have h0 :
        (ParsePanic
          "panic: boom\n\ngoroutine 1 [running]:\nmain.f()\n\t/a/b.go:10 +0x1\n").1 =
        some { cause := GoErr.upanic "boom",
               stackFrames := some [{ File := "/a/b.go", LineNumber := 10,
                                      Name := "f", Package := "main",
                                      ProgramCounter := 0 }],
               pfx := "", stack := [], metadata := none } := by decide
    rw [h0] at hed
    exact (Option.some_inj.mp hed).symm
  subst this
  refine ⟨?_, by decide, rfl, rfl, rfl⟩
  simp [errorDataError, errMsg]

/-- C6 witness: instantiate the conditional part at the parsed value. -/
theorem parsePanic_example_witness :
    (ParsePanic
      "panic: boom\n\ngoroutine 1 [running]:\nmain.f()\n\t/a/b.go:10 +0x1\n").1 =
        some { cause := GoErr.upanic "boom",
               stackFrames := some [{ File := "/a/b.go", LineNumber := 10,
                                      Name := "f", Package := "main",
                                      ProgramCounter := 0 }],
               pfx := "", stack := [], metadata := none } ∧
    errorDataType { cause := GoErr.upanic "boom",
                    stackFrames := some [{ File := "/a/b.go", LineNumber := 10,
                                           Name := "f", Package := "main",
                                           ProgramCounter := 0 }],
                    pfx := "", stack := [], metadata := none } = "panic" :=
  ⟨by decide,
   (parsePanic_example.2 0 ⟨[], 0⟩ (fun _ => default) _ (by decide)).2.1⟩

/-- `strings.Split(s, "\n")` never yields an empty list, and its head is
the text up to the first newline — the input's first line. -/
theorem splitNl_head (cs : List Char) :
    ∃ ls, splitNl cs = (cs.takeWhile fun c => c != '\n') :: ls := by
  induction cs with
  | nil => exact ⟨[], rfl⟩
  | cons c cs ih =>
    by_cases hc : c = '\n'
    · subst hc
      exact ⟨splitNl cs, by simp [splitNl, List.takeWhile_cons]⟩
    · obtain ⟨ls, hls⟩ := ih
      exact ⟨ls, by simp [splitNl, hc, hls, List.takeWhile_cons]⟩

/-- C7: when the input's first line does not start with `"panic: "`,
`ParsePanic` returns `(nil, parse error)` naming the offending line; and in
general parsing is all-or-nothing — the Error Value result is nil exactly
when a parse error is returned. -/
theorem parsePanic_failure_nil :
    (∀ s : String,
      "panic: ".data.isPrefixOf (s.data.takeWhile fun c => c != '\n') = false →
      ParsePanic s =
        (none, some ("errorx.PanicParser: Invalid line (no prefix): " ++
          String.mk (s.data.takeWhile fun c => c != '\n')))) ∧
    (∀ s : String, (ParsePanic s).1 = none ↔ (ParsePanic s).2 ≠ none) := by
  constructor
  · intro s h
    obtain ⟨ls, hls⟩ := splitNl_head s.data
    have hrun : runParse PState.start "" [] (splitNl s.data) =
        Except.error ("errorx.PanicParser: Invalid line (no prefix): " ++
          String.mk (s.data.takeWhile fun c => c != '\n')) := by
      rw [hls]
      simp [runParse, h]
    simp [ParsePanic, hrun]
  · intro s
    rcases hr : runParse PState.start "" [] (splitNl s.data) with m | ⟨st, msg, stk⟩
    · simp [ParsePanic, hr]
    · by_cases hst : st = PState.done ∨ st = PState.parsing
      · simp [ParsePanic, hr, hst]
      · simp [ParsePanic, hr, hst]

/-- C7 witness: the input `"boom"` lacks the `"panic: "` prefix and parses
to `(nil, error)`. -/
theorem parsePanic_failure_nil_witness :
    "panic: ".data.isPrefixOf ("boom".data.takeWhile fun c => c != '\n') = false ∧
    ParsePanic "boom" =
      (none, some ("errorx.PanicParser: Invalid line (no prefix): " ++
        String.mk ("boom".data.takeWhile fun c => c != '\n'))) :=
  ⟨by decide, parsePanic_failure_nil.1 "boom" (by decide)⟩

/-- C1 (code bug): the spec promises a `"metadata"` key for a payload set
via `SetMetadata`, but `jsonObject()` never copies `e.metadata` into the
`errorJSONObject` (whose `Metadata` field keeps its zero value, nil), so
`MarshalJSON` never emits a `"metadata"` key — here shown in general and on
a concrete Error Value whose metadata was just set to the payload `1`. -/
theorem marshalJSON_metadata_never_emitted :
    (∀ (resolve : Resolver) (fuel : Nat) (w : World) (e : ErrorData),
      "metadata" ∉ jsonKeys (MarshalJSON resolve fuel w e)) ∧
    ((getED (SetMetadata ⟨[⟨GoErr.plain 0 "x", none, "", [], none⟩], 1⟩ 0
        (some "1")) 0).metadata = some "1" ∧
     jsonKeys (MarshalJSON (fun _ => default) 1
        (SetMetadata ⟨[⟨GoErr.plain 0 "x", none, "", [], none⟩], 1⟩ 0 (some "1"))
        (getED (SetMetadata ⟨[⟨GoErr.plain 0 "x", none, "", [], none⟩], 1⟩ 0
          (some "1")) 0)) = ["cause"]) := by
  refine ⟨?_, by decide, by decide⟩
  intro resolve fuel w e
  simp only [MarshalJSON, jsonObject, marshalJSONObject, jsonKeys, List.map_append,
    List.mem_append]
  split_ifs <;> simp

/-- C2 (code bug): `StackFrames()` resolves one frame per raw program
counter in capture order and stores the result in its receiver's
`stackFrames` field — but the receiver is a value receiver, so the store
lands in a discarded copy: after the call the Error Value's cache is still
nil and every later call re-resolves (returning content-equal results only
because resolution is deterministic). -/
theorem stackFrames_cache_discarded (resolve : Resolver) (w : World) (a : Nat)
    (h : (getED w a).stackFrames = none) :
    (callStackFrames resolve w a).1 = (getED w a).stack.map resolve ∧
    (stackFramesBody resolve (getED w a)).2.stackFrames =
      some ((getED w a).stack.map resolve) ∧
    (callStackFrames resolve w a).2 = w ∧
    (getED (callStackFrames resolve w a).2 a).stackFrames = none ∧
    (callStackFrames resolve (callStackFrames resolve w a).2 a).1 =
      (callStackFrames resolve w a).1 := by
  refine ⟨?_, ?_, rfl, h, rfl⟩
  · simp [callStackFrames, StackFrames, stackFramesBody, h]
  · simp [stackFramesBody, h]

/-- C2 witness: a concrete two-frame stack; calling `StackFrames()` leaves
the stored cache nil. -/
theorem stackFrames_cache_discarded_witness :
    (getED ⟨[⟨GoErr.plain 0 "x", none, "", [7, 9], none⟩], 1⟩ 0).stackFrames
        = none ∧
    (getED (callStackFrames (fun pc => ⟨"f.go", Int.ofNat pc, "fn", "pkg", pc⟩)
        ⟨[⟨GoErr.plain 0 "x", none, "", [7, 9], none⟩], 1⟩ 0).2 0).stackFrames
        = none :=
  ⟨rfl,
   (stackFrames_cache_discarded (fun pc => ⟨"f.go", Int.ofNat pc, "fn", "pkg", pc⟩)
      ⟨[⟨GoErr.plain 0 "x", none, "", [7, 9], none⟩], 1⟩ 0 rfl).2.2.2.1⟩

/-- C8: `SourceLine()` returns the 1-based line trimmed of spaces and tabs
when the line number is within the code's range (`0 < n < len(lines)`),
the placeholder `"???"` with a nil error when it is out of that range, and
on a read failure an empty string together with a non-nil Error Value
wrapping the filesystem error — never a crash. -/
theorem sourceLine_spec (readFile : String → Except GoErr (List Char))
    (avail : List Nat) (f : StackFrame) :
    (∀ data, readFile f.File = Except.ok data →
      ((0 < f.LineNumber → f.LineNumber < ((splitNl data).length : Int) →
        SourceLine readFile avail f =
          (String.mk (trimCut ((splitNl data).getD (f.LineNumber - 1).toNat [])),
           none)) ∧
       ((f.LineNumber ≤ 0 ∨ ((splitNl data).length : Int) ≤ f.LineNumber) →
        SourceLine readFile avail f = ("???", none)))) ∧
    (∀ e, readFile f.File = Except.error e →
      (SourceLine readFile avail f).2 =
        some { cause := e, stackFrames := none, pfx := "",
               stack := avail.take MaxStackDepth, metadata := none } ∧
      (SourceLine readFile avail f).2 ≠ none ∧
      (SourceLine readFile avail f).1 = "") := by
  constructor
  · intro data hok
    constructor
    · intro h1 h2
      have hcond : ¬(f.LineNumber ≤ 0 ∨
          ((splitNl data).length : Int) ≤ f.LineNumber) := by
        push_neg
        exact ⟨h1, h2⟩
      simp [SourceLine, hok, hcond]
    · intro hcond
      simp [SourceLine, hok, hcond]
  · intro e herr
    refine ⟨?_, ?_, ?_⟩ <;> simp [SourceLine, herr]

/-- C8 witness: a three-line file, line 2 holds `"  b\t"` and comes back
trimmed; an unreadable file yields a non-nil wrapped error. -/
theorem sourceLine_spec_witness :
    ((fun _ => Except.ok (" a\n  b\t\nc\n".data) :
        String → Except GoErr (List Char)) "x.go" =
      Except.ok (" a\n  b\t\nc\n".data)) ∧
    SourceLine (fun _ => Except.ok (" a\n  b\t\nc\n".data)) []
      ⟨"x.go", 2, "", "", 0⟩ = ("b", none) ∧
    (SourceLine (fun _ => Except.error (GoErr.plain 0 "EACCES")) []
      ⟨"x.go", 2, "", "", 0⟩).2 ≠ none := by
  refine ⟨rfl, ?_, ?_⟩
  · have h := ((sourceLine_spec (fun _ => Except.ok (" a\n  b\t\nc\n".data)) []
        ⟨"x.go", 2, "", "", 0⟩).1 (" a\n  b\t\nc\n".data) rfl).1
        (by decide) (by decide)
    rw [h]
    decide
  · exact ((sourceLine_spec (fun _ => Except.error (GoErr.plain 0 "EACCES")) []
      ⟨"x.go", 2, "", "", 0⟩).2 (GoErr.plain 0 "EACCES") rfl).2.1

end Errorx
